import Mathlib

/-!
Verification of the UMA protocol off-chain clients (event-sourced on-chain
state caches, price-feed adapters and the KMS transaction signer) against
their natural-language specification.  Each definition is a shallow
embedding of the corresponding JavaScript/TypeScript function; external
collaborators (web3 providers, HTTP fetchers, hashing utilities) are
passed in as function parameters, mirroring how the source receives them.
-/

namespace OptimisticOracleClient

/-- The `returnValues` record of an OptimisticOracle event.  The source reads
RequestPrice, ProposePrice and DisputePrice events through the same duck-typed
record, so a single structure carries every field the client touches.
`expirationTimestamp` is stored after the `Number(...)` conversion the source
applies at its only use site. -/
structure OOEvent where
  requester : String
  identifier : String
  timestamp : String
  ancillaryData : String
  currency : String
  reward : String
  finalFee : String
  proposer : String
  proposedPrice : String
  disputer : String
  expirationTimestamp : Int
deriving Repr, DecidableEq

/-- `_getPriceRequestKey` (OptimisticOracleClient.js lines 89-91): the
CorrelationKey template string on the request-defining fields. -/
def getPriceRequestKey (e : OOEvent) : String :=
  e.requester ++ "-" ++ e.identifier ++ "-" ++ e.timestamp ++ "-" ++ e.ancillaryData

/-- The filter on request events in `update()` (lines 111-115): keep the
requests for which `proposalEvents.find` comes back `undefined`. -/
def unproposedPriceRequests (requestEvents proposalEvents : List OOEvent) : List OOEvent :=
  requestEvents.filter fun e =>
    (proposalEvents.find? fun p => getPriceRequestKey p == getPriceRequestKey e).isNone

/-- Projection stored in `this.unproposedPriceRequests` (lines 116-125). -/
structure RequestView where
  requester : String
  identifier : String
  timestamp : String
  currency : String
  reward : String
  finalFee : String
deriving Repr, DecidableEq

/-- The per-request projection of lines 117-124; `hexToUtf8` is the web3
utility the constructor stores. -/
def requestView (hexToUtf8 : String → String) (e : OOEvent) : RequestView :=
  { requester := e.requester
    identifier := hexToUtf8 e.identifier
    timestamp := e.timestamp
    currency := e.currency
    reward := e.reward
    finalFee := e.finalFee }

/-- The list assigned to `this.unproposedPriceRequests` (line 116). -/
def unproposedPriceRequestsView (hexToUtf8 : String → String)
    (requestEvents proposalEvents : List OOEvent) : List RequestView :=
  (unproposedPriceRequests requestEvents proposalEvents).map (requestView hexToUtf8)

/-- The filter on proposal events in `update()` (lines 128-132): proposals for
which `disputeEvents.find` comes back `undefined`.  The spec calls this list
`candidateProposals`; in the source it is the local `undisputedProposals`
before the projection is applied. -/
def candidateProposals (proposalEvents disputeEvents : List OOEvent) : List OOEvent :=
  proposalEvents.filter fun e =>
    (disputeEvents.find? fun d => getPriceRequestKey d == getPriceRequestKey e).isNone

/-- Projection stored for proposals (lines 133-142). -/
structure ProposalView where
  requester : String
  proposer : String
  identifier : String
  timestamp : String
  proposedPrice : String
  expirationTimestamp : Int
deriving Repr, DecidableEq

/-- The per-proposal projection of lines 134-141. -/
def proposalView (hexToUtf8 : String → String) (e : OOEvent) : ProposalView :=
  { requester := e.requester
    proposer := e.proposer
    identifier := hexToUtf8 e.identifier
    timestamp := e.timestamp
    proposedPrice := e.proposedPrice
    expirationTimestamp := e.expirationTimestamp }

/-- `isExpired` (lines 145-147): `Number(proposal.expirationTimestamp) <=
Number(currentTime)`. -/
def isExpired (currentTime : Int) (p : ProposalView) : Bool :=
  p.expirationTimestamp ≤ currentTime

/-- The list assigned to `this.expiredProposals` (line 148). -/
def expiredProposals (hexToUtf8 : String → String) (currentTime : Int)
    (proposalEvents disputeEvents : List OOEvent) : List ProposalView :=
  ((candidateProposals proposalEvents disputeEvents).map (proposalView hexToUtf8)).filter
    (isExpired currentTime)

/-- The list assigned to `this.undisputedProposals` (line 149). -/
def undisputedProposals (hexToUtf8 : String → String) (currentTime : Int)
    (proposalEvents disputeEvents : List OOEvent) : List ProposalView :=
  ((candidateProposals proposalEvents disputeEvents).map (proposalView hexToUtf8)).filter
    fun p => !(isExpired currentTime p)

/-- The expired bucket traced at event granularity: the same filter as
`expiredProposals`, applied before the projection.  Linked to the stored
bucket by `expiredProposals_eq_map` below. -/
def expiredProposalEvents (currentTime : Int)
    (proposalEvents disputeEvents : List OOEvent) : List OOEvent :=
  (candidateProposals proposalEvents disputeEvents).filter
    fun e => decide (e.expirationTimestamp ≤ currentTime)

/-- The undisputed-active bucket traced at event granularity. -/
def undisputedProposalEvents (currentTime : Int)
    (proposalEvents disputeEvents : List OOEvent) : List OOEvent :=
  (candidateProposals proposalEvents disputeEvents).filter
    fun e => !(decide (e.expirationTimestamp ≤ currentTime))

/-- Projection pushed into `this.settleableDisputes` (lines 209-215). -/
structure DisputeView where
  requester : String
  proposer : String
  disputer : String
  identifier : String
  timestamp : String
deriving Repr, DecidableEq

/-- The per-dispute projection of lines 209-215. -/
def disputeView (hexToUtf8 : String → String) (e : OOEvent) : DisputeView :=
  { requester := e.requester
    proposer := e.proposer
    disputer := e.disputer
    identifier := hexToUtf8 e.identifier
    timestamp := e.timestamp }

/-- One element of the `Promise.all` array of lines 152-182.  `priceQuery`
bundles the external `stampAncillaryData` and `voting.getPrice` calls for one
dispute: `.error ()` models a throw anywhere inside the `try` block (caught by
the `catch`, source line 178), `.ok none` models a price of `null` after
`revertWrapper` (Modelled from the spec: `revertWrapper` from `@uma/common` is
not under src/; per the spec it maps a revert-indicating return value to
`null`), and `.ok (some v)` a resolved price. -/
def resolvedPriceEntry (priceQuery : OOEvent → Except Unit (Option Int))
    (d : OOEvent) : Option OOEvent :=
  match priceQuery d with
  | .error _ => none
  | .ok none => none
  | .ok (some _) => some d

/-- `disputesWithResolvedPrices` (lines 183-185): drop the `null` entries. -/
def disputesWithResolvedPrices (priceQuery : OOEvent → Except Unit (Option Int))
    (disputeEvents : List OOEvent) : List OOEvent :=
  (disputeEvents.map (resolvedPriceEntry priceQuery)).filterMap id

/-- The `Promise.all` of lines 188-203: pair every remaining dispute with its
on-chain `getState` result; a rejection of any `getState` call rejects the
whole batch (and hence `update()`). -/
def attachStates (getState : OOEvent → Except Unit String) :
    List OOEvent → Except Unit (List (OOEvent × String))
  | [] => .ok []
  | d :: rest =>
    match getState d with
    | .error e => .error e
    | .ok s =>
      match attachStates getState rest with
      | .error e => .error e
      | .ok l => .ok ((d, s) :: l)

/-- Modelled from the spec: `OptimisticOracleRequestStatesEnum.SETTLED` from
`@uma/common` is not under src/; the spec only compares request states against
the distinguished Settled marker, so any fixed constant is faithful. -/
def SETTLED : String := "Settled"

/-- The settleable disputes at event granularity (lines 205-217): of the
disputes whose price resolved, keep those whose state is not `SETTLED`. -/
def settleableDisputeEvents (priceQuery : OOEvent → Except Unit (Option Int))
    (getState : OOEvent → Except Unit String)
    (disputeEvents : List OOEvent) : Except Unit (List OOEvent) :=
  match attachStates getState (disputesWithResolvedPrices priceQuery disputeEvents) with
  | .error e => .error e
  | .ok dd => .ok ((dd.filter fun x => !(x.2 == SETTLED)).map fun x => x.1)

/-- The list assigned to `this.settleableDisputes` when `update()` completes. -/
def settleableDisputes (hexToUtf8 : String → String)
    (priceQuery : OOEvent → Except Unit (Option Int))
    (getState : OOEvent → Except Unit String)
    (disputeEvents : List OOEvent) : Except Unit (List DisputeView) :=
  match settleableDisputeEvents priceQuery getState disputeEvents with
  | .error e => .error e
  | .ok l => .ok (l.map (disputeView hexToUtf8))

end OptimisticOracleClient

namespace InsuredBridgeL2Client

/-- `returnValues` of a `FundsDeposited` event.  Numeric fields are stored
after the `Number(...)` conversions of source lines 129-138. -/
structure DepositEventRV where
  chainId : Int
  depositId : Int
  l1Recipient : String
  l2Sender : String
  l1Token : String
  amount : String
  slowRelayFeePct : String
  instantRelayFeePct : String
  quoteTimestamp : Int
deriving Repr, DecidableEq

/-- A `FundsDeposited` event as returned by `getPastEvents`. -/
structure DepositEvent where
  transactionHash : String
  address : String
  returnValues : DepositEventRV
deriving Repr, DecidableEq

/-- `returnValues` of a `WhitelistToken` event. -/
structure WhitelistEventRV where
  l1Token : String
  l2Token : String
deriving Repr, DecidableEq

/-- A `WhitelistToken` event as returned by `getPastEvents`. -/
structure WhitelistEvent where
  transactionHash : String
  returnValues : WhitelistEventRV
deriving Repr, DecidableEq

/-- The `Deposit` interface (InsuredBridgeL2Client.ts lines 10-22). -/
structure Deposit where
  chainId : Int
  depositId : Int
  depositHash : String
  l1Recipient : String
  l2Sender : String
  l1Token : String
  amount : String
  slowRelayFeePct : String
  instantRelayFeePct : String
  quoteTimestamp : Int
  depositContract : String
deriving Repr, DecidableEq

/-- The mutable fields of the client: `deposits` (DepositHash to Deposit),
`whitelistedTokens` (L1Token to L2Token) and the `firstBlockToSearch`
watermark. -/
structure L2State where
  deposits : String → Option Deposit
  whitelistedTokens : String → Option String
  firstBlockToSearch : Nat

/-- The read-only construction parameters of the client together with the
external utilities it closes over: `checksum` is web3
`toChecksumAddress`, and `hashFn` is the `encodeParameters` plus
`soliditySha3` composition of `generateDepositHash` (lines 155-169), with
`none` modelling a `null` hash. -/
structure L2Config where
  endingBlockNumber : Option Nat
  checksum : String → String
  hashFn : Deposit → Option String

/-- Events of one redundant provider (index 1 and up). -/
structure ProviderEvents where
  fundsDepositedEvents : List DepositEvent
  whitelistedTokenEvents : List WhitelistEvent
deriving Repr, DecidableEq

/-- Everything one `update()` call reads from the outside world. -/
structure UpdateInputs where
  latestBlockNumber : Nat
  fundsDepositedEvents : List DepositEvent
  whitelistedTokenEvents : List WhitelistEvent
  otherProviderEvents : List ProviderEvents

/-- `blockSearchConfig.toBlock` (line 77):
`this.endingBlockNumber || (await getBlockNumber())`; the JavaScript `||`
falls through on `null` and on `0`. -/
def computeToBlock (cfg : L2Config) (latestBlockNumber : Nat) : Nat :=
  match cfg.endingBlockNumber with
  | some n => if n = 0 then latestBlockNumber else n
  | none => latestBlockNumber

/-- The error message thrown by the reconciliation loop (lines 105-107 and
112-114).  Note it interpolates only the event name and the transaction hash;
the provider index `i` does not appear. -/
def missingHashMessage (eventName hash : String) : String :=
  "Could not find " ++ eventName ++ " transaction hash " ++ hash ++
    " in first l2 web3 provider"

/-- The two `forEach` checks of lines 103-116 for one redundant provider: the
first event whose transaction hash is missing from the canonical hash list
throws. -/
def reconcileOne (fdHashes wtHashes : List String) (p : ProviderEvents) : Option String :=
  match p.fundsDepositedEvents.find? fun e => !(fdHashes.contains e.transactionHash) with
  | some e => some (missingHashMessage "FundsDeposited" e.transactionHash)
  | none =>
    match p.whitelistedTokenEvents.find? fun e => !(wtHashes.contains e.transactionHash) with
    | some e => some (missingHashMessage "WhitelistToken" e.transactionHash)
    | none => none

/-- The provider loop of lines 98-117: providers are checked in order and the
first divergence throws. -/
def reconcileProviders (fdHashes wtHashes : List String) :
    List ProviderEvents → Option String
  | [] => none
  | p :: rest =>
    match reconcileOne fdHashes wtHashes p with
    | some m => some m
    | none => reconcileProviders fdHashes wtHashes rest

/-- The whitelist ingestion loop of lines 121-125: oldest-to-newest replay,
last writer wins, keys and values checksummed. -/
def applyWhitelistEvents (checksum : String → String) :
    (String → Option String) → List WhitelistEvent → (String → Option String)
  | wt, [] => wt
  | wt, e :: rest =>
    applyWhitelistEvents checksum
      (fun k =>
        if k = checksum e.returnValues.l1Token then some (checksum e.returnValues.l2Token)
        else wt k)
      rest

/-- `generateDepositHash` (lines 154-172): hash the deposit data and throw
`Bad deposit hash` when the hash comes back empty or `null`. -/
def generateDepositHash (hashFn : Deposit → Option String) (d : Deposit) :
    Except String String :=
  match hashFn d with
  | none => .error "Bad deposit hash"
  | some h => if h = "" then .error "Bad deposit hash" else .ok h

/-- `depositData` as built from one `FundsDeposited` event (lines 128-140),
before the hash is filled in. -/
def depositDataOfEvent (e : DepositEvent) : Deposit :=
  { chainId := e.returnValues.chainId
    depositId := e.returnValues.depositId
    depositHash := ""
    l1Recipient := e.returnValues.l1Recipient
    l2Sender := e.returnValues.l2Sender
    l1Token := e.returnValues.l1Token
    amount := e.returnValues.amount
    slowRelayFeePct := e.returnValues.slowRelayFeePct
    instantRelayFeePct := e.returnValues.instantRelayFeePct
    quoteTimestamp := e.returnValues.quoteTimestamp
    depositContract := e.address }

/-- The deposit ingestion loop of lines 127-143.  Deposits are written into
the map one by one; if `generateDepositHash` throws, the loop stops and the
deposits already written stay written — the second component carries the
thrown message. -/
def applyDepositEvents (hashFn : Deposit → Option String) :
    (String → Option Deposit) → List DepositEvent →
      (String → Option Deposit) × Option String
  | deposits, [] => (deposits, none)
  | deposits, e :: rest =>
    match generateDepositHash hashFn (depositDataOfEvent e) with
    | .error m => (deposits, some m)
    | .ok h =>
      applyDepositEvents hashFn
        (fun k =>
          if k = h then some { depositDataOfEvent e with depositHash := h } else deposits k)
        rest

/-- `update()` (lines 73-152).  The returned state is the value of the
mutable fields when the call finishes, whether it returns normally (second
component `none`) or throws (second component carries the message), exactly
mirroring the in-place mutation of the source. -/
def update (cfg : L2Config) (st : L2State) (inp : UpdateInputs) :
    L2State × Option String :=
  if st.firstBlockToSearch > computeToBlock cfg inp.latestBlockNumber then (st, none)
  else
    match reconcileProviders (inp.fundsDepositedEvents.map fun e => e.transactionHash)
        (inp.whitelistedTokenEvents.map fun e => e.transactionHash)
        inp.otherProviderEvents with
    | some m => (st, some m)
    | none =>
      match applyDepositEvents cfg.hashFn st.deposits inp.fundsDepositedEvents with
      | (dep', some m) =>
        ({ deposits := dep'
           whitelistedTokens := applyWhitelistEvents cfg.checksum st.whitelistedTokens
             inp.whitelistedTokenEvents
           firstBlockToSearch := st.firstBlockToSearch }, some m)
      | (dep', none) =>
        ({ deposits := dep'
           whitelistedTokens := applyWhitelistEvents cfg.checksum st.whitelistedTokens
             inp.whitelistedTokenEvents
           firstBlockToSearch := computeToBlock cfg inp.latestBlockNumber + 1 }, none)

/-- A sequence of `update()` calls, each feeding the state the previous call
left behind (thrown errors are caught by the polling loop). -/
def runUpdates (cfg : L2Config) : L2State → List UpdateInputs → L2State
  | st, [] => st
  | st, inp :: rest => runUpdates cfg (update cfg st inp).1 rest

end InsuredBridgeL2Client

namespace TwelveDataApiPriceFeed

/-- One entry of `newHistoricalPricePeriods` (TwelveDataApiPriceFeed.ts lines
134-141).  `closePrice` carries the result of `convertPriceFeedDecimals` as a
big-number integer. -/
structure PricePeriod where
  date : Int
  closePrice : Int
deriving Repr, DecidableEq

/-- The mutable fields of the feed: `priceHistory`, `currentPrice` (a BN or
`null`) and `lastUpdateTime` (a number or `null`). -/
structure TDState where
  priceHistory : List PricePeriod
  currentPrice : Option Int
  lastUpdateTime : Option Int
deriving Repr, DecidableEq

/-- Constructor parameters and the external conversion utilities the feed
closes over: `convert` is `convertPriceFeedDecimals` and `dateTimeToSecond`
the moment-based parser. -/
structure TDConfig where
  minTimeBetweenUpdates : Int
  lookback : Int
  convert : String → Int
  dateTimeToSecond : String → Int

/-- One element of `historyResponse.values`. -/
structure RawValue where
  datetime : String
  close : String
deriving Repr, DecidableEq

/-- Result of one `update()` call: the state on exit, whether the external
API was queried, and the thrown error if any. -/
structure TDResult where
  state : TDState
  fetched : Bool
  error : Option String
deriving Repr, DecidableEq

/-- `update()` (lines 49-148).  `response` models `historyResponse?.values`
after the fetch: `none` when the response or its `values` field is missing or
falsy.  The guard of line 53 returns before the fetch, so a guarded call
reports `fetched = false`. -/
def update (cfg : TDConfig) (st : TDState) (currentTime : Int)
    (response : Option (List RawValue)) : TDResult :=
  match st.lastUpdateTime with
  | some t0 =>
    if currentTime < t0 + cfg.minTimeBetweenUpdates then
      { state := st, fetched := false, error := none }
    else updateBody cfg st currentTime response
  | none => updateBody cfg st currentTime response
where
  /-- Lines 64-147: fetch, check, parse and store. -/
  updateBody (cfg : TDConfig) (st : TDState) (currentTime : Int)
      (response : Option (List RawValue)) : TDResult :=
    match response with
    | none =>
      { state := st, fetched := true
        error := some "Could not parse price result from url" }
    | some [] =>
      { state := st, fetched := true
        error := some "Could not parse price result from url" }
    | some (v :: vs) =>
      let newHistoricalPricePeriods := (v :: vs).map fun d =>
        ({ date := cfg.dateTimeToSecond d.datetime
           closePrice := cfg.convert d.close } : PricePeriod)
      { state :=
          { priceHistory := newHistoricalPricePeriods
            currentPrice :=
              some (newHistoricalPricePeriods.getLastD { date := 0, closePrice := 0 }).closePrice
            lastUpdateTime := some currentTime }
        fetched := true
        error := none }

/-- `getCurrentPrice()` (lines 151-153). -/
def getCurrentPrice (st : TDState) : Option Int := st.currentPrice

/-- `getLastUpdateTime()` (lines 219-221). -/
def getLastUpdateTime (st : TDState) : Option Int := st.lastUpdateTime

end TwelveDataApiPriceFeed

namespace CommoditiesApiPriceFeed

/-- A JavaScript value as stored in the dynamically-typed `currentPrice`
field: `null`, `undefined`, a BN, a plain number, or an un-awaited Promise
(which either resolves to a value or rejects with an error message). -/
inductive JsVal where
  | nullV : JsVal
  | undefV : JsVal
  | bnV : Int → JsVal
  | numV : Rat → JsVal
  | promiseV : Except String JsVal → JsVal
deriving Repr

/-- One rate object of `historyResponse.data.rates`, read through the
`rate[baseCurrency.toUpperCase()]` and `rate[commodity.toUpperCase()]`
accesses: `none` models a missing field. -/
structure RateEntry where
  baseVal : Option Rat
  commodityVal : Option Rat
deriving Repr, DecidableEq

/-- A rate object after `Object.assign` has attached the parsed `date`
(lines 286-288). -/
structure RatePeriod where
  baseVal : Option Rat
  commodityVal : Option Rat
  date : Int
deriving Repr, DecidableEq

/-- The mutable fields of the feed.  `currentPrice` is dynamically typed in
the source (it is assigned a Promise by `update()`), hence `JsVal`. -/
structure CommState where
  priceHistory : List RatePeriod
  currentPrice : JsVal
  lastUpdateTime : Option Int
deriving Repr

/-- Constructor parameters and the external date parser. -/
structure CommConfig where
  uuid : String
  minTimeBetweenUpdates : Int
  lookback : Int
  dateTimeToSecond : String → Int

/-- The `data` field of the HTTP response: `Object.entries` of
`data.rates` in iteration order. -/
structure CommData where
  rates : List (String × RateEntry)

/-- JavaScript truthiness of an optionally-present number: absent fields and
zero are falsy. -/
def truthyRat (v : Option Rat) : Bool :=
  match v with
  | none => false
  | some q => q ≠ 0

/-- `_getPriceFromObject` (lines 302-304):
`rate[BASE] / rate[COMMODITY]`; only reached under the truthiness guard, so
both fields are present and the divisor is nonzero. -/
def getPriceFromObject (r : RatePeriod) : Rat :=
  r.baseVal.getD 0 / r.commodityVal.getD 0

/-- `getHistoricalPrice` (lines 310-366) as the outcome of its Promise,
evaluated synchronously against the state at call time.  Two source quirks
are preserved: `firstPrice` holds a number, so the `time < firstPrice.date`
check of line 331 compares against `undefined` and never throws; and
`match.openPrice` on line 359 reads a field rate objects do not have, so a
matched period resolves to `undefined`.  The `lastUpdateTime === undefined`
check of line 311 can never fire because the field is initialised to `null`
and only ever assigned numbers. -/
def getHistoricalPriceResult (cfg : CommConfig) (st : CommState) (time : Int) :
    Except String JsVal :=
  match st.priceHistory.find? fun p => truthyRat p.baseVal && truthyRat p.commodityVal with
  | none => .error (cfg.uuid ++ ": no valid price periods")
  | some _ =>
    match st.priceHistory.find? fun p => time < p.date with
    | some _ => .ok .undefV
    | none =>
      match st.currentPrice with
      | .nullV => .error (cfg.uuid ++ ": currentPrice is null")
      | v => .ok v

/-- Result of one `update()` call. -/
structure CommResult where
  state : CommState
  fetched : Bool
  error : Option String
deriving Repr

/-- `update()` (lines 230-295).  `response` models `historyResponse?.data`:
`none` when the response or its `data` field is missing or falsy.  The
`data.length === 0` disjunct of the check on lines 276-281 reads `length` on
an object, which is `undefined` and never strictly equals `0`, so only the
missing-`data` case throws.  On success, line 292 assigns `currentPrice` the
un-awaited Promise of `getHistoricalPrice(currentTime)`, whose body has
already run synchronously against the pre-update `priceHistory` and
`currentPrice`. -/
def update (cfg : CommConfig) (st : CommState) (currentTime : Int)
    (response : Option CommData) : CommResult :=
  match st.lastUpdateTime with
  | some t0 =>
    if currentTime < t0 + cfg.minTimeBetweenUpdates then
      { state := st, fetched := false, error := none }
    else updateBody cfg st currentTime response
  | none => updateBody cfg st currentTime response
where
  /-- Lines 252-295: fetch, check, parse and store. -/
  updateBody (cfg : CommConfig) (st : CommState) (currentTime : Int)
      (response : Option CommData) : CommResult :=
    match response with
    | none =>
      { state := st, fetched := true
        error := some "Could not parse price result from url" }
    | some data =>
      let newHistoricalPricePeriods := data.rates.map fun e =>
        ({ baseVal := e.2.baseVal, commodityVal := e.2.commodityVal
           date := cfg.dateTimeToSecond e.1 } : RatePeriod)
      { state :=
          { priceHistory := newHistoricalPricePeriods
            currentPrice := .promiseV (getHistoricalPriceResult cfg st currentTime)
            lastUpdateTime := some currentTime }
        fetched := true
        error := none }

/-- `getCurrentPrice()` (lines 306-308): returns whatever `currentPrice`
holds, Promise included. -/
def getCurrentPrice (st : CommState) : JsVal := st.currentPrice

/-- `getLastUpdateTime()` (lines 368-370). -/
def getLastUpdateTime (st : CommState) : Option Int := st.lastUpdateTime

end CommoditiesApiPriceFeed

namespace AwsKmsSigner

/-- What the chain knows about the sending account: the confirmed transaction
count and the number of transactions sitting in the mempool. -/
structure AccountTxState where
  confirmedCount : Nat
  pendingTxCount : Nat
deriving Repr, DecidableEq

/-- Modelled from the spec: `accountHasPendingTransactions` from
`TransactionUtils` in `@uma/common` is not under src/; per the spec it
queries whether the sending account has pending (unconfirmed)
transactions. -/
def accountHasPendingTransactions (a : AccountTxState) : Bool :=
  0 < a.pendingTxCount

/-- Modelled from the spec: `getPendingTransactionCount` from
`TransactionUtils` in `@uma/common` is not under src/; per the spec it
returns the transaction count including the pending mempool transactions, so
a nonce drawn from it chains behind them. -/
def getPendingTransactionCount (a : AccountTxState) : Nat :=
  a.confirmedCount + a.pendingTxCount

/-- `web3.eth.getTransactionCount` (external collaborator): the confirmed
transaction count. -/
def getTransactionCount (a : AccountTxState) : Nat := a.confirmedCount

/-- The nonce selection of `sendTxWithKMS` (aws-kms-signer.ts lines
74-82). -/
def chooseNonce (a : AccountTxState) : Nat :=
  if accountHasPendingTransactions a then getPendingTransactionCount a
  else getTransactionCount a

/-- The fee-relevant fields of the `transactionConfig` argument; `none`
models an absent (`undefined`) field. -/
structure TxSendConfig where
  maxFeePerGas : Option Int
  maxPriorityFeePerGas : Option Int
  gasPrice : Option Int
deriving Repr, DecidableEq

/-- The fee-relevant fields of the unsigned `txParams` object. -/
structure TxParams where
  maxFeePerGas : Option Int
  maxPriorityFeePerGas : Option Int
  gasPrice : Option Int
  type : Nat
  chainId : Nat
deriving Repr, DecidableEq

/-- The `txParams` construction of `sendTxWithKMS` (lines 97-110):
`parseInt(transactionConfig.maxFeePerGas.toString()) * 2` dereferences
`maxFeePerGas` unconditionally — when the field is absent the property access
on `undefined` throws a TypeError — and `type: 2` and `chainId: 5` are
hard-coded, so no branch ever builds a legacy transaction. -/
def buildTxParams (cfg : TxSendConfig) : Except String TxParams :=
  match cfg.maxFeePerGas with
  | none => .error "TypeError: Cannot read properties of undefined (reading toString)"
  | some f =>
    .ok { maxFeePerGas := some (2 * f)
          maxPriorityFeePerGas := cfg.maxPriorityFeePerGas
          gasPrice := cfg.gasPrice
          type := 2
          chainId := 5 }

end AwsKmsSigner

namespace Samples

open OptimisticOracleClient InsuredBridgeL2Client TwelveDataApiPriceFeed
open CommoditiesApiPriceFeed AwsKmsSigner

/-- A concrete RequestPrice event. -/
def sampleRequest : OOEvent :=
  { requester := "0xReq", identifier := "PXUSD", timestamp := "100"
    ancillaryData := "0x", currency := "0xCur", reward := "1", finalFee := "2"
    proposer := "", proposedPrice := "", disputer := "", expirationTimestamp := 0 }

/-- A concrete ProposePrice event sharing the CorrelationKey of
`sampleRequest`. -/
def sampleProposal : OOEvent :=
  { requester := "0xReq", identifier := "PXUSD", timestamp := "100"
    ancillaryData := "0x", currency := "", reward := "", finalFee := ""
    proposer := "0xProp", proposedPrice := "42", disputer := ""
    expirationTimestamp := 200 }

/-- A concrete DisputePrice event sharing the same CorrelationKey. -/
def sampleDispute : OOEvent :=
  { requester := "0xReq", identifier := "PXUSD", timestamp := "100"
    ancillaryData := "0x", currency := "", reward := "", finalFee := ""
    proposer := "0xProp", proposedPrice := "42", disputer := "0xDisp"
    expirationTimestamp := 200 }

/-- A price query that always throws (the DVM has not voted). -/
def priceThrows : OOEvent → Except Unit (Option Int) := fun _ => .error ()

/-- A state oracle that always reports `SETTLED`. -/
def stateSettled : OOEvent → Except Unit String := fun _ => .ok SETTLED

/-- An L2 client state with empty caches and watermark 10. -/
def sampleL2State : L2State :=
  { deposits := fun _ => none, whitelistedTokens := fun _ => none
    firstBlockToSearch := 10 }

/-- A hash backend that always produces a hash. -/
def goodHashFn : Deposit → Option String := fun d => some ("hash" ++ toString d.depositId)

/-- A hash backend whose `soliditySha3` comes back `null`. -/
def badHashFn : Deposit → Option String := fun _ => none

/-- Client configuration following the chain head. -/
def sampleL2Config : L2Config :=
  { endingBlockNumber := none, checksum := id, hashFn := goodHashFn }

/-- Client configuration whose hash backend fails. -/
def badL2Config : L2Config :=
  { endingBlockNumber := none, checksum := id, hashFn := badHashFn }

/-- Client configuration pinned to ending block 5, below the watermark of
`sampleL2State`. -/
def noopL2Config : L2Config :=
  { endingBlockNumber := some 5, checksum := id, hashFn := goodHashFn }

/-- A concrete WhitelistToken event. -/
def sampleWhitelistEvent : WhitelistEvent :=
  { transactionHash := "0xwt1"
    returnValues := { l1Token := "0xL1", l2Token := "0xL2" } }

/-- A concrete FundsDeposited event. -/
def sampleDepositEvent : DepositEvent :=
  { transactionHash := "0xfd1", address := "0xbox"
    returnValues :=
      { chainId := 10, depositId := 1, l1Recipient := "0xr", l2Sender := "0xs"
        l1Token := "0xL1", amount := "5", slowRelayFeePct := "1"
        instantRelayFeePct := "1", quoteTimestamp := 99 } }

/-- A FundsDeposited event that only a redundant provider reports. -/
def extraDepositEvent : DepositEvent :=
  { sampleDepositEvent with transactionHash := "0xdeadbeef" }

/-- A redundant provider holding the extra event. -/
def offendingProvider : ProviderEvents :=
  { fundsDepositedEvents := [extraDepositEvent], whitelistedTokenEvents := [] }

/-- A redundant provider that agrees with provider 0. -/
def emptyProvider : ProviderEvents :=
  { fundsDepositedEvents := [], whitelistedTokenEvents := [] }

/-- Update inputs with no events and no redundant providers. -/
def noopInputs : UpdateInputs :=
  { latestBlockNumber := 20, fundsDepositedEvents := []
    whitelistedTokenEvents := [], otherProviderEvents := [] }

/-- Update inputs whose only redundant provider (index 1) reports the extra
event. -/
def c4InputsA : UpdateInputs :=
  { latestBlockNumber := 20, fundsDepositedEvents := []
    whitelistedTokenEvents := [], otherProviderEvents := [offendingProvider] }

/-- Update inputs where the offending provider sits at index 2 instead. -/
def c4InputsB : UpdateInputs :=
  { latestBlockNumber := 20, fundsDepositedEvents := []
    whitelistedTokenEvents := []
    otherProviderEvents := [emptyProvider, offendingProvider] }

/-- Update inputs carrying one whitelist event and one deposit event. -/
def c5Inputs : UpdateInputs :=
  { latestBlockNumber := 20, fundsDepositedEvents := [sampleDepositEvent]
    whitelistedTokenEvents := [sampleWhitelistEvent], otherProviderEvents := [] }

/-- A TwelveData feed configuration. -/
def tdConfig : TDConfig :=
  { minTimeBetweenUpdates := 900, lookback := 345600
    convert := fun _ => 0, dateTimeToSecond := fun _ => 0 }

/-- A TwelveData feed state freshly updated at time 1000. -/
def tdState : TDState :=
  { priceHistory := [{ date := 900, closePrice := 5 }], currentPrice := some 5
    lastUpdateTime := some 1000 }

/-- A commodities feed configuration. -/
def commCfg : CommConfig :=
  { uuid := "CommoditiesApi-XAUUSD", minTimeBetweenUpdates := 43200
    lookback := 86400, dateTimeToSecond := fun _ => 0 }

/-- A commodities feed state freshly updated at time 1000. -/
def commState : CommState :=
  { priceHistory := [], currentPrice := .nullV, lastUpdateTime := some 1000 }

/-- A commodities feed state that has never been updated. -/
def commStateFresh : CommState :=
  { priceHistory := [], currentPrice := .nullV, lastUpdateTime := none }

/-- A response whose `data.rates` is empty. -/
def commDataEmpty : CommData := { rates := [] }

end Samples

namespace OptimisticOracleClient

/-- Membership in a key-absence filter: an element survives exactly when no
event of the other list shares its CorrelationKey. -/
theorem mem_filterKeyNone (l others : List OOEvent) (e : OOEvent) :
    (e ∈ l.filter fun x =>
        (others.find? fun o => getPriceRequestKey o == getPriceRequestKey x).isNone) ↔
      e ∈ l ∧ ∀ o ∈ others, getPriceRequestKey o ≠ getPriceRequestKey e := by
  simp [List.mem_filter, Option.isNone_iff_eq_none, List.find?_eq_none]

/-- Filtering after a map is mapping after filtering on the composed
predicate. -/
theorem filterOfMap {α β : Type} (f : α → β) (q : β → Bool) (l : List α) :
    (l.map f).filter q = (l.filter fun a => q (f a)).map f := by
  induction l with
  | nil => rfl
  | cons a l ih =>
    simp only [List.map_cons, List.filter_cons]
    cases h : q (f a) <;> simp [h, ih]

/-- Membership in `candidateProposals`. -/
theorem mem_candidateProposals (proposalEvents disputeEvents : List OOEvent) (p : OOEvent) :
    p ∈ candidateProposals proposalEvents disputeEvents ↔
      p ∈ proposalEvents ∧
        ∀ d ∈ disputeEvents, getPriceRequestKey d ≠ getPriceRequestKey p := by
  unfold candidateProposals
  exact mem_filterKeyNone proposalEvents disputeEvents p

/-- Membership in the event-level expired bucket. -/
theorem mem_expiredProposalEvents (currentTime : Int)
    (proposalEvents disputeEvents : List OOEvent) (p : OOEvent) :
    p ∈ expiredProposalEvents currentTime proposalEvents disputeEvents ↔
      p ∈ candidateProposals proposalEvents disputeEvents ∧
        p.expirationTimestamp ≤ currentTime := by
  simp [expiredProposalEvents, List.mem_filter]

/-- Membership in the event-level undisputed-active bucket. -/
theorem mem_undisputedProposalEvents (currentTime : Int)
    (proposalEvents disputeEvents : List OOEvent) (p : OOEvent) :
    p ∈ undisputedProposalEvents currentTime proposalEvents disputeEvents ↔
      p ∈ candidateProposals proposalEvents disputeEvents ∧
        currentTime < p.expirationTimestamp := by
  simp [undisputedProposalEvents, List.mem_filter, Int.not_le]

end OptimisticOracleClient

/-- C1: for every set of events processed in one `update()` call, a request
event appears in the `unproposedPriceRequests` bucket iff no proposal event
shares its CorrelationKey (the string
requester-identifier-timestamp-ancillaryData); the stored view is the
projection of exactly that list. -/
theorem claim_C1 (hexToUtf8 : String → String)
    (requestEvents proposalEvents : List OptimisticOracleClient.OOEvent)
    (e : OptimisticOracleClient.OOEvent) (he : e ∈ requestEvents) :
    (e ∈ OptimisticOracleClient.unproposedPriceRequests requestEvents proposalEvents ↔
      ∀ p ∈ proposalEvents,
        OptimisticOracleClient.getPriceRequestKey p ≠
          OptimisticOracleClient.getPriceRequestKey e)
    ∧ OptimisticOracleClient.unproposedPriceRequestsView hexToUtf8 requestEvents
          proposalEvents
        = (OptimisticOracleClient.unproposedPriceRequests requestEvents
            proposalEvents).map (OptimisticOracleClient.requestView hexToUtf8) := by
  constructor
  · unfold OptimisticOracleClient.unproposedPriceRequests
    rw [OptimisticOracleClient.mem_filterKeyNone]
    exact and_iff_right he
  · rfl

/-- Witness for C1 at a concrete request with no proposals. -/
theorem claim_C1_witness :
    (Samples.sampleRequest ∈
        OptimisticOracleClient.unproposedPriceRequests [Samples.sampleRequest] [] ↔
      ∀ p ∈ ([] : List OptimisticOracleClient.OOEvent),
        OptimisticOracleClient.getPriceRequestKey p ≠
          OptimisticOracleClient.getPriceRequestKey Samples.sampleRequest)
    ∧ OptimisticOracleClient.unproposedPriceRequestsView id [Samples.sampleRequest] []
        = (OptimisticOracleClient.unproposedPriceRequests [Samples.sampleRequest]
            []).map (OptimisticOracleClient.requestView id) :=
  claim_C1 id [Samples.sampleRequest] [] Samples.sampleRequest (by simp)

/-- C2: the stored `expiredProposals` and `undisputedProposals` buckets are
the projections of the event-level buckets; a proposal with a dispute sharing
its CorrelationKey lands in neither bucket; a proposal with no such dispute
lands in exactly one of them, chosen by comparing its expirationTimestamp
with the on-chain current time. -/
theorem claim_C2 (hexToUtf8 : String → String) (currentTime : Int)
    (proposalEvents disputeEvents : List OptimisticOracleClient.OOEvent)
    (p : OptimisticOracleClient.OOEvent) (hp : p ∈ proposalEvents) :
    (OptimisticOracleClient.expiredProposals hexToUtf8 currentTime proposalEvents
          disputeEvents
        = (OptimisticOracleClient.expiredProposalEvents currentTime proposalEvents
            disputeEvents).map (OptimisticOracleClient.proposalView hexToUtf8)
      ∧ OptimisticOracleClient.undisputedProposals hexToUtf8 currentTime proposalEvents
          disputeEvents
        = (OptimisticOracleClient.undisputedProposalEvents currentTime proposalEvents
            disputeEvents).map (OptimisticOracleClient.proposalView hexToUtf8))
    ∧ ((∃ d ∈ disputeEvents,
          OptimisticOracleClient.getPriceRequestKey d =
            OptimisticOracleClient.getPriceRequestKey p) →
        p ∉ OptimisticOracleClient.expiredProposalEvents currentTime proposalEvents
            disputeEvents
        ∧ p ∉ OptimisticOracleClient.undisputedProposalEvents currentTime
            proposalEvents disputeEvents)
    ∧ ((∀ d ∈ disputeEvents,
          OptimisticOracleClient.getPriceRequestKey d ≠
            OptimisticOracleClient.getPriceRequestKey p) →
        (p ∈ OptimisticOracleClient.expiredProposalEvents currentTime proposalEvents
            disputeEvents ↔ p.expirationTimestamp ≤ currentTime)
        ∧ (p ∈ OptimisticOracleClient.undisputedProposalEvents currentTime
            proposalEvents disputeEvents ↔ currentTime < p.expirationTimestamp)
        ∧ ¬(p ∈ OptimisticOracleClient.expiredProposalEvents currentTime
              proposalEvents disputeEvents
            ∧ p ∈ OptimisticOracleClient.undisputedProposalEvents currentTime
              proposalEvents disputeEvents)) := by
  refine ⟨⟨?_, ?_⟩, ?_, ?_⟩
  · unfold OptimisticOracleClient.expiredProposals
      OptimisticOracleClient.expiredProposalEvents
    rw [OptimisticOracleClient.filterOfMap]
    rfl
  · unfold OptimisticOracleClient.undisputedProposals
      OptimisticOracleClient.undisputedProposalEvents
    rw [OptimisticOracleClient.filterOfMap]
    rfl
  · rintro ⟨d, hd, hkey⟩
    constructor
    · intro hmem
      exact ((OptimisticOracleClient.mem_expiredProposalEvents _ _ _ _).1 hmem).1
        |> (OptimisticOracleClient.mem_candidateProposals _ _ _).1
        |> fun h => h.2 d hd hkey
    · intro hmem
      exact ((OptimisticOracleClient.mem_undisputedProposalEvents _ _ _ _).1 hmem).1
        |> (OptimisticOracleClient.mem_candidateProposals _ _ _).1
        |> fun h => h.2 d hd hkey
  · intro hnod
    have hcand : p ∈ OptimisticOracleClient.candidateProposals proposalEvents
        disputeEvents :=
      (OptimisticOracleClient.mem_candidateProposals _ _ _).2 ⟨hp, hnod⟩
    refine ⟨?_, ?_, ?_⟩
    · rw [OptimisticOracleClient.mem_expiredProposalEvents]
      exact and_iff_right hcand
    · rw [OptimisticOracleClient.mem_undisputedProposalEvents]
      exact and_iff_right hcand
    · rintro ⟨h1, h2⟩
      have e1 := ((OptimisticOracleClient.mem_expiredProposalEvents _ _ _ _).1 h1).2
      have e2 := ((OptimisticOracleClient.mem_undisputedProposalEvents _ _ _ _).1 h2).2
      omega

/-- Witness for C2 at a concrete disputed proposal. -/
theorem claim_C2_witness :
    Samples.sampleProposal ∉
        OptimisticOracleClient.expiredProposalEvents 150 [Samples.sampleProposal]
          [Samples.sampleDispute]
    ∧ Samples.sampleProposal ∉
        OptimisticOracleClient.undisputedProposalEvents 150 [Samples.sampleProposal]
          [Samples.sampleDispute] :=
  (claim_C2 id 150 [Samples.sampleProposal] [Samples.sampleDispute]
      Samples.sampleProposal (by simp)).2.1
    ⟨Samples.sampleDispute, by simp, rfl⟩

namespace OptimisticOracleClient

/-- A dispute surviving the resolved-price filter has a resolved price. -/
theorem mem_disputesWithResolvedPrices
    (priceQuery : OOEvent → Except Unit (Option Int))
    (disputeEvents : List OOEvent) (x : OOEvent)
    (hx : x ∈ disputesWithResolvedPrices priceQuery disputeEvents) :
    ∃ v, priceQuery x = .ok (some v) := by
  unfold disputesWithResolvedPrices at hx
  rw [List.mem_filterMap] at hx
  obtain ⟨y, hy, hxy⟩ := hx
  rw [List.mem_map] at hy
  obtain ⟨a, _, hfa⟩ := hy
  subst hfa
  simp only [id_eq] at hxy
  unfold resolvedPriceEntry at hxy
  cases hpq : priceQuery a with
  | error u => rw [hpq] at hxy; cases hxy
  | ok o =>
    cases o with
    | none => rw [hpq] at hxy; cases hxy
    | some v =>
      rw [hpq] at hxy
      cases hxy
      exact ⟨v, hpq⟩

/-- Every pair produced by `attachStates` pairs a listed dispute with its own
`getState` result. -/
theorem attachStates_ok_mem (getState : OOEvent → Except Unit String)
    (ds : List OOEvent) (l : List (OOEvent × String))
    (h : attachStates getState ds = .ok l) :
    ∀ x ∈ l, x.1 ∈ ds ∧ getState x.1 = .ok x.2 := by
  induction ds generalizing l with
  | nil =>
    unfold attachStates at h
    cases h
    intro x hx
    cases hx
  | cons d rest ih =>
    unfold attachStates at h
    cases hg : getState d with
    | error e => rw [hg] at h; cases h
    | ok s =>
      rw [hg] at h
      cases hr : attachStates getState rest with
      | error e => rw [hr] at h; cases h
      | ok l' =>
        rw [hr] at h
        cases h
        intro x hx
        rcases List.mem_cons.1 hx with hx1 | hx2
        · subst hx1
          exact ⟨List.mem_cons_self _ _, hg⟩
        · obtain ⟨hmem, hst⟩ := ih l' hr x hx2
          exact ⟨List.mem_cons_of_mem _ hmem, hst⟩

/-- Every event in a successful `settleableDisputeEvents` result survived the
resolved-price filter and carries its own non-settled `getState` result. -/
theorem settleable_ok_mem (priceQuery : OOEvent → Except Unit (Option Int))
    (getState : OOEvent → Except Unit String) (disputeEvents : List OOEvent)
    (l : List OOEvent)
    (h : settleableDisputeEvents priceQuery getState disputeEvents = .ok l) :
    ∀ x ∈ l, (∃ v, priceQuery x = .ok (some v)) ∧ getState x ≠ .ok SETTLED := by
  unfold settleableDisputeEvents at h
  cases hat : attachStates getState (disputesWithResolvedPrices priceQuery disputeEvents) with
  | error e => rw [hat] at h; cases h
  | ok dd =>
    rw [hat] at h
    cases h
    intro x hx
    rw [List.mem_map] at hx
    obtain ⟨y, hy, hyx⟩ := hx
    rw [List.mem_filter] at hy
    obtain ⟨hydd, hyset⟩ := hy
    obtain ⟨hmem, hst⟩ := attachStates_ok_mem getState _ dd hat y hydd
    subst hyx
    refine ⟨mem_disputesWithResolvedPrices priceQuery disputeEvents y.1 hmem, ?_⟩
    intro hcontra
    rw [hst] at hcontra
    injection hcontra with h2
    rw [h2] at hyset
    simp at hyset

end OptimisticOracleClient

/-- C6: a dispute whose price query throws or returns no price never reaches
the settleable bucket; a dispute whose on-chain state is already `SETTLED` is
likewise excluded; and for a single dispute whose price query throws,
`update()` completes normally with the settleable bucket empty. -/
theorem claim_C6
    (priceQuery : OptimisticOracleClient.OOEvent → Except Unit (Option Int))
    (getState : OptimisticOracleClient.OOEvent → Except Unit String)
    (disputeEvents : List OptimisticOracleClient.OOEvent)
    (d : OptimisticOracleClient.OOEvent) (hd : d ∈ disputeEvents) :
    ((priceQuery d = .error () ∨ priceQuery d = .ok none) →
      ∀ l, OptimisticOracleClient.settleableDisputeEvents priceQuery getState
          disputeEvents = .ok l → d ∉ l)
    ∧ (getState d = .ok OptimisticOracleClient.SETTLED →
      ∀ l, OptimisticOracleClient.settleableDisputeEvents priceQuery getState
          disputeEvents = .ok l → d ∉ l)
    ∧ (priceQuery d = .error () →
      OptimisticOracleClient.settleableDisputeEvents priceQuery getState [d]
        = .ok []) := by
  refine ⟨?_, ?_, ?_⟩
  · intro hpq l hl hmem
    obtain ⟨⟨v, hv⟩, _⟩ :=
      OptimisticOracleClient.settleable_ok_mem priceQuery getState disputeEvents l hl
        d hmem
    rcases hpq with hpq | hpq <;> rw [hpq] at hv <;> cases hv
  · intro hset l hl hmem
    obtain ⟨_, hne⟩ :=
      OptimisticOracleClient.settleable_ok_mem priceQuery getState disputeEvents l hl
        d hmem
    exact hne hset
  · intro hpq
    have h1 : OptimisticOracleClient.disputesWithResolvedPrices priceQuery [d] = [] := by
      simp [OptimisticOracleClient.disputesWithResolvedPrices,
        OptimisticOracleClient.resolvedPriceEntry, hpq]
    unfold OptimisticOracleClient.settleableDisputeEvents
    rw [h1]
    rfl

/-- Witness for C6: one dispute whose price query throws yields an empty
settleable bucket. -/
theorem claim_C6_witness :
    OptimisticOracleClient.settleableDisputeEvents Samples.priceThrows
        Samples.stateSettled [Samples.sampleDispute] = .ok [] :=
  (claim_C6 Samples.priceThrows Samples.stateSettled [Samples.sampleDispute]
      Samples.sampleDispute (by simp)).2.2 rfl

namespace InsuredBridgeL2Client

/-- One provider reconciles silently exactly when every one of its events has
a matching transaction hash in the canonical result set. -/
theorem reconcileOne_none_iff (fdHashes wtHashes : List String) (p : ProviderEvents) :
    reconcileOne fdHashes wtHashes p = none ↔
      (∀ e ∈ p.fundsDepositedEvents, e.transactionHash ∈ fdHashes)
      ∧ ∀ e ∈ p.whitelistedTokenEvents, e.transactionHash ∈ wtHashes := by
  unfold reconcileOne
  cases hf : p.fundsDepositedEvents.find? fun e => !(fdHashes.contains e.transactionHash) with
  | some e =>
    have h1 := List.find?_some hf
    have h2 := List.mem_of_find?_eq_some hf
    simp only [Bool.not_eq_true'] at h1
    constructor
    · intro h; cases h
    · rintro ⟨hall, _⟩
      have h4 : fdHashes.contains e.transactionHash = true := by simpa using hall e h2
      rw [h1] at h4
      cases h4
  | none =>
    have hfd : ∀ e ∈ p.fundsDepositedEvents, e.transactionHash ∈ fdHashes := by
      rw [List.find?_eq_none] at hf
      intro e he
      simpa using hf e he
    cases hw : p.whitelistedTokenEvents.find? fun e => !(wtHashes.contains e.transactionHash) with
    | some e =>
      have h1 := List.find?_some hw
      have h2 := List.mem_of_find?_eq_some hw
      simp only [Bool.not_eq_true'] at h1
      constructor
      · intro h; cases h
      · rintro ⟨_, hall⟩
        have h4 : wtHashes.contains e.transactionHash = true := by simpa using hall e h2
        rw [h1] at h4
        cases h4
    | none =>
      have hwt : ∀ e ∈ p.whitelistedTokenEvents, e.transactionHash ∈ wtHashes := by
        rw [List.find?_eq_none] at hw
        intro e he
        simpa using hw e he
      simp only [true_iff]
      exact ⟨hfd, hwt⟩

/-- A reconciliation error for one provider names the transaction hash of one
of its events that is missing from the canonical result set. -/
theorem reconcileOne_some (fdHashes wtHashes : List String) (p : ProviderEvents)
    (m : String) (h : reconcileOne fdHashes wtHashes p = some m) :
    (∃ e ∈ p.fundsDepositedEvents, e.transactionHash ∉ fdHashes ∧
        m = missingHashMessage "FundsDeposited" e.transactionHash)
    ∨ ∃ e ∈ p.whitelistedTokenEvents, e.transactionHash ∉ wtHashes ∧
        m = missingHashMessage "WhitelistToken" e.transactionHash := by
  unfold reconcileOne at h
  cases hf : p.fundsDepositedEvents.find? fun e => !(fdHashes.contains e.transactionHash) with
  | some e =>
    rw [hf] at h
    injection h with hm
    left
    refine ⟨e, List.mem_of_find?_eq_some hf, ?_, hm.symm⟩
    have h1 := List.find?_some hf
    simp only [Bool.not_eq_true'] at h1
    intro hmem
    have h4 : fdHashes.contains e.transactionHash = true := by simpa using hmem
    rw [h1] at h4
    cases h4
  | none =>
    rw [hf] at h
    cases hw : p.whitelistedTokenEvents.find? fun e => !(wtHashes.contains e.transactionHash) with
    | some e =>
      rw [hw] at h
      injection h with hm
      right
      refine ⟨e, List.mem_of_find?_eq_some hw, ?_, hm.symm⟩
      have h1 := List.find?_some hw
      simp only [Bool.not_eq_true'] at h1
      intro hmem
      have h4 : wtHashes.contains e.transactionHash = true := by simpa using hmem
      rw [h1] at h4
      cases h4
    | none =>
      rw [hw] at h
      cases h

/-- The provider loop reconciles silently exactly when every redundant
provider is covered by the canonical result set.  Extra events present only
in provider 0 never matter: the condition constrains the redundant providers
only. -/
theorem reconcileProviders_none_iff (fdHashes wtHashes : List String)
    (others : List ProviderEvents) :
    reconcileProviders fdHashes wtHashes others = none ↔
      ∀ p ∈ others,
        (∀ e ∈ p.fundsDepositedEvents, e.transactionHash ∈ fdHashes)
        ∧ ∀ e ∈ p.whitelistedTokenEvents, e.transactionHash ∈ wtHashes := by
  induction others with
  | nil => simp [reconcileProviders]
  | cons p rest ih =>
    unfold reconcileProviders
    cases h1 : reconcileOne fdHashes wtHashes p with
    | some m =>
      constructor
      · intro h; cases h
      · intro hall
        have h2 := (reconcileOne_none_iff fdHashes wtHashes p).2 (hall p (by simp))
        rw [h1] at h2
        cases h2
    | none =>
      rw [ih]
      constructor
      · intro hall q hq
        rcases List.mem_cons.1 hq with hq1 | hq2
        · subst hq1
          exact (reconcileOne_none_iff fdHashes wtHashes q).1 h1
        · exact hall q hq2
      · intro hall q hq
        exact hall q (List.mem_cons_of_mem _ hq)

/-- A provider-loop error is the missing-hash message of an event of one of
the redundant providers. -/
theorem reconcileProviders_some (fdHashes wtHashes : List String)
    (others : List ProviderEvents) (m : String)
    (h : reconcileProviders fdHashes wtHashes others = some m) :
    ∃ p ∈ others,
      (∃ e ∈ p.fundsDepositedEvents, e.transactionHash ∉ fdHashes ∧
          m = missingHashMessage "FundsDeposited" e.transactionHash)
      ∨ ∃ e ∈ p.whitelistedTokenEvents, e.transactionHash ∉ wtHashes ∧
          m = missingHashMessage "WhitelistToken" e.transactionHash := by
  induction others with
  | nil => cases h
  | cons p rest ih =>
    unfold reconcileProviders at h
    cases h1 : reconcileOne fdHashes wtHashes p with
    | some m' =>
      rw [h1] at h
      injection h with hm
      subst hm
      exact ⟨p, by simp, reconcileOne_some fdHashes wtHashes p m' h1⟩
    | none =>
      rw [h1] at h
      obtain ⟨q, hq, hprop⟩ := ih h
      exact ⟨q, List.mem_cons_of_mem _ hq, hprop⟩

/-- One `update()` call never lowers the watermark. -/
theorem update_watermark_mono (cfg : L2Config) (st : L2State) (inp : UpdateInputs) :
    st.firstBlockToSearch ≤ ((update cfg st inp).1).firstBlockToSearch := by
  unfold update
  split
  · exact Nat.le_refl _
  · split
    · exact Nat.le_refl _
    · split
      · exact Nat.le_refl _
      · simp only []
        omega

/-- A sequence of `update()` calls never lowers the watermark. -/
theorem runUpdates_watermark_mono (cfg : L2Config) (inps : List UpdateInputs)
    (st : L2State) :
    st.firstBlockToSearch ≤ (runUpdates cfg st inps).firstBlockToSearch := by
  induction inps generalizing st with
  | nil => exact Nat.le_refl _
  | cons inp rest ih =>
    exact Nat.le_trans (update_watermark_mono cfg st inp) (ih (update cfg st inp).1)

end InsuredBridgeL2Client

/-- C3: a call whose computed `toBlock` lies below the watermark is a no-op
returning the state untouched; a successful non-no-op call advances the
watermark to `toBlock + 1`; and the watermark is monotonically non-decreasing
over one call and over any sequence of calls. -/
theorem claim_C3 (cfg : InsuredBridgeL2Client.L2Config)
    (st : InsuredBridgeL2Client.L2State) (inp : InsuredBridgeL2Client.UpdateInputs) :
    (InsuredBridgeL2Client.computeToBlock cfg inp.latestBlockNumber <
        st.firstBlockToSearch →
      InsuredBridgeL2Client.update cfg st inp = (st, none))
    ∧ (∀ st', InsuredBridgeL2Client.update cfg st inp = (st', none) →
      st.firstBlockToSearch ≤ InsuredBridgeL2Client.computeToBlock cfg
        inp.latestBlockNumber →
      st'.firstBlockToSearch
        = InsuredBridgeL2Client.computeToBlock cfg inp.latestBlockNumber + 1)
    ∧ (∀ st' e, InsuredBridgeL2Client.update cfg st inp = (st', e) →
      st.firstBlockToSearch ≤ st'.firstBlockToSearch)
    ∧ ∀ inps, st.firstBlockToSearch ≤
        (InsuredBridgeL2Client.runUpdates cfg st inps).firstBlockToSearch := by
  refine ⟨?_, ?_, ?_, ?_⟩
  · intro h
    unfold InsuredBridgeL2Client.update
    rw [if_pos h]
  · intro st' hupd hle
    unfold InsuredBridgeL2Client.update at hupd
    rw [if_neg (show ¬(st.firstBlockToSearch >
        InsuredBridgeL2Client.computeToBlock cfg inp.latestBlockNumber) by omega)] at hupd
    cases hrec : InsuredBridgeL2Client.reconcileProviders
        (inp.fundsDepositedEvents.map fun e => e.transactionHash)
        (inp.whitelistedTokenEvents.map fun e => e.transactionHash)
        inp.otherProviderEvents with
    | some m => simp [hrec] at hupd
    | none =>
      simp only [hrec] at hupd
      cases happ : InsuredBridgeL2Client.applyDepositEvents cfg.hashFn st.deposits
          inp.fundsDepositedEvents with
      | mk dep' opt =>
        cases opt with
        | some m => simp [happ] at hupd
        | none =>
          simp only [happ, Prod.mk.injEq] at hupd
          rw [← hupd.1]
  · intro st' e hupd
    have h := InsuredBridgeL2Client.update_watermark_mono cfg st inp
    rw [hupd] at h
    exact h
  · intro inps
    exact InsuredBridgeL2Client.runUpdates_watermark_mono cfg inps st

/-- Witness for C3: a below-watermark call is a no-op, and a successful call
from watermark 10 against chain head 20 leaves the watermark at 21. -/
theorem claim_C3_witness :
    InsuredBridgeL2Client.update Samples.noopL2Config Samples.sampleL2State
        Samples.noopInputs = (Samples.sampleL2State, none)
    ∧ (InsuredBridgeL2Client.update Samples.sampleL2Config Samples.sampleL2State
        Samples.noopInputs).1.firstBlockToSearch = 21 := by
  constructor
  · exact (claim_C3 Samples.noopL2Config Samples.sampleL2State Samples.noopInputs).1
      (by decide)
  · have h := (claim_C3 Samples.sampleL2Config Samples.sampleL2State
        Samples.noopInputs).2.1
      (InsuredBridgeL2Client.update Samples.sampleL2Config Samples.sampleL2State
        Samples.noopInputs).1 rfl (by decide)
    rw [h]
    decide

/-- Counterexample for C4 as stated: the thrown message is identical whether
the offending provider is the first redundant provider or the second, so the
error does not name the offending provider index. -/
theorem claim_C4_counterexample :
    InsuredBridgeL2Client.update Samples.sampleL2Config Samples.sampleL2State
        Samples.c4InputsA
      = (Samples.sampleL2State,
          some "Could not find FundsDeposited transaction hash 0xdeadbeef in first l2 web3 provider")
    ∧ InsuredBridgeL2Client.update Samples.sampleL2Config Samples.sampleL2State
        Samples.c4InputsB
      = (Samples.sampleL2State,
          some "Could not find FundsDeposited transaction hash 0xdeadbeef in first l2 web3 provider") :=
  ⟨rfl, rfl⟩

/-- C4 (amended): a redundant-provider event whose transaction hash is absent
from provider 0 makes the reconciliation loop fail, and `update()` throws an
error naming the missing transaction hash (but not the offending provider
index); the check is forward-only, so extra events present only in provider 0
are never flagged. -/
theorem claim_C4 (cfg : InsuredBridgeL2Client.L2Config)
    (st : InsuredBridgeL2Client.L2State) (inp : InsuredBridgeL2Client.UpdateInputs) :
    (InsuredBridgeL2Client.reconcileProviders
        (inp.fundsDepositedEvents.map fun e => e.transactionHash)
        (inp.whitelistedTokenEvents.map fun e => e.transactionHash)
        inp.otherProviderEvents = none ↔
      ∀ p ∈ inp.otherProviderEvents,
        (∀ e ∈ p.fundsDepositedEvents,
          e.transactionHash ∈ inp.fundsDepositedEvents.map fun ev => ev.transactionHash)
        ∧ ∀ e ∈ p.whitelistedTokenEvents,
          e.transactionHash ∈ inp.whitelistedTokenEvents.map fun ev => ev.transactionHash)
    ∧ ∀ m, InsuredBridgeL2Client.reconcileProviders
        (inp.fundsDepositedEvents.map fun e => e.transactionHash)
        (inp.whitelistedTokenEvents.map fun e => e.transactionHash)
        inp.otherProviderEvents = some m →
      (st.firstBlockToSearch ≤
          InsuredBridgeL2Client.computeToBlock cfg inp.latestBlockNumber →
        InsuredBridgeL2Client.update cfg st inp = (st, some m))
      ∧ ∃ p ∈ inp.otherProviderEvents,
          (∃ e ∈ p.fundsDepositedEvents,
            (e.transactionHash ∉ inp.fundsDepositedEvents.map fun ev => ev.transactionHash)
            ∧ m = InsuredBridgeL2Client.missingHashMessage "FundsDeposited"
                e.transactionHash)
          ∨ ∃ e ∈ p.whitelistedTokenEvents,
            (e.transactionHash ∉ inp.whitelistedTokenEvents.map fun ev => ev.transactionHash)
            ∧ m = InsuredBridgeL2Client.missingHashMessage "WhitelistToken"
                e.transactionHash := by
  constructor
  · exact InsuredBridgeL2Client.reconcileProviders_none_iff _ _ _
  · intro m hrec
    constructor
    · intro hle
      unfold InsuredBridgeL2Client.update
      rw [if_neg (show ¬(st.firstBlockToSearch >
          InsuredBridgeL2Client.computeToBlock cfg inp.latestBlockNumber) by omega), hrec]
    · exact InsuredBridgeL2Client.reconcileProviders_some _ _ _ m hrec

/-- Witness for C4 at the concrete offending provider. -/
theorem claim_C4_witness :
    InsuredBridgeL2Client.update Samples.sampleL2Config Samples.sampleL2State
        Samples.c4InputsA
      = (Samples.sampleL2State,
          some (InsuredBridgeL2Client.missingHashMessage "FundsDeposited" "0xdeadbeef")) :=
  ((claim_C4 Samples.sampleL2Config Samples.sampleL2State Samples.c4InputsA).2
      (InsuredBridgeL2Client.missingHashMessage "FundsDeposited" "0xdeadbeef")
      (by decide)).1 (by decide)

/-- Counterexample for C5 as stated: when `generateDepositHash` throws after
the whitelist loop has run, the watermark stays put but the
`whitelistedTokens` map is NOT equal to its pre-call value — the partial
mutation survives. -/
theorem claim_C5_counterexample :
    (InsuredBridgeL2Client.update Samples.badL2Config Samples.sampleL2State
        Samples.c5Inputs).2 = some "Bad deposit hash"
    ∧ (InsuredBridgeL2Client.update Samples.badL2Config Samples.sampleL2State
        Samples.c5Inputs).1.firstBlockToSearch
      = Samples.sampleL2State.firstBlockToSearch
    ∧ (InsuredBridgeL2Client.update Samples.badL2Config Samples.sampleL2State
        Samples.c5Inputs).1.whitelistedTokens "0xL1" = some "0xL2"
    ∧ Samples.sampleL2State.whitelistedTokens "0xL1" = none
    ∧ (InsuredBridgeL2Client.update Samples.badL2Config Samples.sampleL2State
        Samples.c5Inputs).1.whitelistedTokens
      ≠ Samples.sampleL2State.whitelistedTokens := by
  refine ⟨rfl, rfl, rfl, rfl, ?_⟩
  intro h
  exact absurd (congrFun h "0xL1") (by decide)

/-- C5 (amended): any `update()` throw leaves the watermark unadvanced; a
provider-divergence throw additionally leaves the whole state untouched
(whitelist and deposit mutations happen only after reconciliation passes,
and an ingestion throw can leave them partially applied). -/
theorem claim_C5 (cfg : InsuredBridgeL2Client.L2Config)
    (st : InsuredBridgeL2Client.L2State) (inp : InsuredBridgeL2Client.UpdateInputs) :
    (∀ st' m, InsuredBridgeL2Client.update cfg st inp = (st', some m) →
      st'.firstBlockToSearch = st.firstBlockToSearch)
    ∧ ∀ m, st.firstBlockToSearch ≤
          InsuredBridgeL2Client.computeToBlock cfg inp.latestBlockNumber →
        InsuredBridgeL2Client.reconcileProviders
          (inp.fundsDepositedEvents.map fun e => e.transactionHash)
          (inp.whitelistedTokenEvents.map fun e => e.transactionHash)
          inp.otherProviderEvents = some m →
        InsuredBridgeL2Client.update cfg st inp = (st, some m) := by
  constructor
  · intro st' m hupd
    unfold InsuredBridgeL2Client.update at hupd
    by_cases hnoop : st.firstBlockToSearch >
        InsuredBridgeL2Client.computeToBlock cfg inp.latestBlockNumber
    · rw [if_pos hnoop] at hupd
      simp at hupd
    · rw [if_neg hnoop] at hupd
      cases hrec : InsuredBridgeL2Client.reconcileProviders
          (inp.fundsDepositedEvents.map fun e => e.transactionHash)
          (inp.whitelistedTokenEvents.map fun e => e.transactionHash)
          inp.otherProviderEvents with
      | some m' =>
        simp only [hrec, Prod.mk.injEq] at hupd
        rw [← hupd.1]
      | none =>
        simp only [hrec] at hupd
        cases happ : InsuredBridgeL2Client.applyDepositEvents cfg.hashFn st.deposits
            inp.fundsDepositedEvents with
        | mk dep' opt =>
          cases opt with
          | some m' =>
            simp only [happ, Prod.mk.injEq] at hupd
            rw [← hupd.1]
          | none => simp [happ] at hupd
  · intro m hle hrec
    unfold InsuredBridgeL2Client.update
    rw [if_neg (show ¬(st.firstBlockToSearch >
        InsuredBridgeL2Client.computeToBlock cfg inp.latestBlockNumber) by omega), hrec]

/-- Witness for C5: the failing ingestion keeps the watermark, and a
divergence failure returns the untouched state. -/
theorem claim_C5_witness :
    (InsuredBridgeL2Client.update Samples.badL2Config Samples.sampleL2State
        Samples.c5Inputs).1.firstBlockToSearch
      = Samples.sampleL2State.firstBlockToSearch
    ∧ InsuredBridgeL2Client.update Samples.sampleL2Config Samples.sampleL2State
        Samples.c4InputsB
      = (Samples.sampleL2State,
          some (InsuredBridgeL2Client.missingHashMessage "FundsDeposited" "0xdeadbeef")) :=
  ⟨(claim_C5 Samples.badL2Config Samples.sampleL2State Samples.c5Inputs).1
      (InsuredBridgeL2Client.update Samples.badL2Config Samples.sampleL2State
        Samples.c5Inputs).1 "Bad deposit hash" rfl,
    (claim_C5 Samples.sampleL2Config Samples.sampleL2State Samples.c4InputsB).2
      (InsuredBridgeL2Client.missingHashMessage "FundsDeposited" "0xdeadbeef")
      (by decide) (by decide)⟩

/-- C7: when `lastUpdateTime` is set and `currentTime - lastUpdateTime` is
below `minTimeBetweenUpdates`, `update()` of both the TwelveData and the
Commodities feed returns without fetching and leaves the whole state
(`currentPrice`, `priceHistory`, `lastUpdateTime`) unchanged, whatever the
external data source would have answered. -/
theorem claim_C7 (cfgT : TwelveDataApiPriceFeed.TDConfig)
    (stT : TwelveDataApiPriceFeed.TDState) (t0T tT : Int)
    (respT : Option (List TwelveDataApiPriceFeed.RawValue))
    (cfgC : CommoditiesApiPriceFeed.CommConfig)
    (stC : CommoditiesApiPriceFeed.CommState) (t0C tC : Int)
    (respC : Option CommoditiesApiPriceFeed.CommData)
    (hT0 : stT.lastUpdateTime = some t0T)
    (hTg : tT - t0T < cfgT.minTimeBetweenUpdates)
    (hC0 : stC.lastUpdateTime = some t0C)
    (hCg : tC - t0C < cfgC.minTimeBetweenUpdates) :
    TwelveDataApiPriceFeed.update cfgT stT tT respT
      = { state := stT, fetched := false, error := none }
    ∧ CommoditiesApiPriceFeed.update cfgC stC tC respC
      = { state := stC, fetched := false, error := none } := by
  constructor
  · unfold TwelveDataApiPriceFeed.update
    simp only [hT0]
    rw [if_pos (show tT < t0T + cfgT.minTimeBetweenUpdates by omega)]
  · unfold CommoditiesApiPriceFeed.update
    simp only [hC0]
    rw [if_pos (show tC < t0C + cfgC.minTimeBetweenUpdates by omega)]

/-- Witness for C7 at concrete feed states updated at time 1000 and polled
again at time 1500. -/
theorem claim_C7_witness :
    TwelveDataApiPriceFeed.update Samples.tdConfig Samples.tdState 1500 none
      = { state := Samples.tdState, fetched := false, error := none }
    ∧ CommoditiesApiPriceFeed.update Samples.commCfg Samples.commState 1500 none
      = { state := Samples.commState, fetched := false, error := none } :=
  claim_C7 Samples.tdConfig Samples.tdState 1000 1500 none
    Samples.commCfg Samples.commState 1000 1500 none
    rfl (by decide) rfl (by decide)

/-- C10: a Commodities feed `update()` that passes the response check and
completes stores in `currentPrice` the un-awaited Promise of
`getHistoricalPrice(currentTime)` evaluated against the pre-update state, so
`getCurrentPrice()` afterwards returns that Promise object — not a BN value
and not `null`. -/
theorem claim_C10 (cfg : CommoditiesApiPriceFeed.CommConfig)
    (st : CommoditiesApiPriceFeed.CommState) (t : Int)
    (data : CommoditiesApiPriceFeed.CommData)
    (hf : (CommoditiesApiPriceFeed.update cfg st t (some data)).fetched = true) :
    CommoditiesApiPriceFeed.getCurrentPrice
        (CommoditiesApiPriceFeed.update cfg st t (some data)).state
      = .promiseV (CommoditiesApiPriceFeed.getHistoricalPriceResult cfg st t)
    ∧ (∀ v, CommoditiesApiPriceFeed.getCurrentPrice
        (CommoditiesApiPriceFeed.update cfg st t (some data)).state
      ≠ .bnV v)
    ∧ CommoditiesApiPriceFeed.getCurrentPrice
        (CommoditiesApiPriceFeed.update cfg st t (some data)).state
      ≠ .nullV := by
  have hstate : CommoditiesApiPriceFeed.getCurrentPrice
      (CommoditiesApiPriceFeed.update cfg st t (some data)).state
      = .promiseV (CommoditiesApiPriceFeed.getHistoricalPriceResult cfg st t) := by
    unfold CommoditiesApiPriceFeed.update at hf ⊢
    cases hlu : st.lastUpdateTime with
    | none => rfl
    | some t0 =>
      simp only []
      by_cases hguard : t < t0 + cfg.minTimeBetweenUpdates
      · rw [hlu] at hf
        simp only [] at hf
        rw [if_pos hguard] at hf
        simp at hf
      · rw [if_neg hguard]
        rfl
  refine ⟨hstate, ?_, ?_⟩
  · intro v
    rw [hstate]
    intro hcontra
    cases hcontra
  · rw [hstate]
    intro hcontra
    cases hcontra

/-- Witness for C10 at a fresh feed state and an empty rates object. -/
theorem claim_C10_witness :
    CommoditiesApiPriceFeed.getCurrentPrice
        (CommoditiesApiPriceFeed.update Samples.commCfg Samples.commStateFresh 0
          (some Samples.commDataEmpty)).state
      = .promiseV (CommoditiesApiPriceFeed.getHistoricalPriceResult Samples.commCfg
          Samples.commStateFresh 0) :=
  (claim_C10 Samples.commCfg Samples.commStateFresh 0 Samples.commDataEmpty rfl).1

/-- C8: the KMS signer uses the pending-inclusive transaction count as the
nonce when the account has pending transactions and the confirmed count
otherwise; with 2 pending transactions over a confirmed count of 5 the nonce
is 7, not 5. -/
theorem claim_C8 :
    (∀ a : AwsKmsSigner.AccountTxState,
      AwsKmsSigner.chooseNonce a =
        if 0 < a.pendingTxCount then a.confirmedCount + a.pendingTxCount
        else a.confirmedCount)
    ∧ AwsKmsSigner.chooseNonce { confirmedCount := 5, pendingTxCount := 2 } = 7
    ∧ AwsKmsSigner.chooseNonce { confirmedCount := 5, pendingTxCount := 2 } ≠ 5 := by
  refine ⟨?_, by decide, by decide⟩
  intro a
  by_cases h : 0 < a.pendingTxCount <;>
    simp [AwsKmsSigner.chooseNonce, AwsKmsSigner.accountHasPendingTransactions,
      AwsKmsSigner.getPendingTransactionCount, AwsKmsSigner.getTransactionCount, h]

/-- C9: evaluating the fee handling of `sendTxWithKMS` shows that a config
carrying only a legacy `gasPrice` makes the call throw a TypeError instead of
building a legacy transaction, and that every successful build doubles
`maxFeePerGas` and hard-codes `type` 2 (and `chainId` 5) — there is no fee
scheme selection. -/
theorem claim_C9 :
    AwsKmsSigner.buildTxParams
        { maxFeePerGas := none, maxPriorityFeePerGas := none, gasPrice := some 30 }
      = .error "TypeError: Cannot read properties of undefined (reading toString)"
    ∧ AwsKmsSigner.buildTxParams
        { maxFeePerGas := some 10, maxPriorityFeePerGas := some 2, gasPrice := none }
      = .ok { maxFeePerGas := some 20, maxPriorityFeePerGas := some 2
              gasPrice := none, type := 2, chainId := 5 }
    ∧ AwsKmsSigner.buildTxParams
        { maxFeePerGas := some 10, maxPriorityFeePerGas := none, gasPrice := some 30 }
      = .ok { maxFeePerGas := some 20, maxPriorityFeePerGas := none
              gasPrice := some 30, type := 2, chainId := 5 }
    ∧ AwsKmsSigner.buildTxParams
        { maxFeePerGas := none, maxPriorityFeePerGas := none, gasPrice := none }
      = .error "TypeError: Cannot read properties of undefined (reading toString)" :=
  ⟨rfl, rfl, rfl, rfl⟩
